import Mathlib

/-!
# Verification of `scripts/validate_agent_specs.py`

A shallow embedding of the agent-specification validator.  Document text is
modelled as `List Char` (the script decodes files to `str`); every function
below is translated directly from the corresponding Python definition.
-/

set_option maxRecDepth 20000

/-- Text, modelled as a list of characters. -/
abbrev Str := List Char

/-- Convert a Lean string literal to the `List Char` model. -/
def sToL (s : String) : Str := s.data

/-- ASCII whitespace recognised by Python's `\s` and `str.strip()`
(the inputs of interest are ASCII). -/
def isSpaceC (c : Char) : Bool :=
  c = ' ' || c = '\t' || c = '\n' || c = '\r' || c = '\x0b' || c = '\x0c'

/-- Python `content.split('\n')`: split on every newline, keeping empty parts. -/
def splitOnNl : Str → List Str
  | [] => [[]]
  | c :: cs =>
    if c = '\n' then [] :: splitOnNl cs
    else
      match splitOnNl cs with
      | l :: ls => (c :: l) :: ls
      | [] => [[c]]

/-- Python `str.strip()`: remove leading and trailing whitespace. -/
def strip (s : Str) : Str :=
  ((s.dropWhile isSpaceC).reverse.dropWhile isSpaceC).reverse

/-- Python `'\n'.join(parts)`. -/
def joinNl (parts : List Str) : Str :=
  List.intercalate ['\n'] parts

/-- Python dict insertion `d[k] = v`: overwrite in place if the key exists,
otherwise append at the end (insertion order). -/
def dinsert (k v : Str) : List (Str × Str) → List (Str × Str)
  | [] => [(k, v)]
  | (k', v') :: rest =>
    if k' = k then (k, v) :: rest else (k', v') :: dinsert k v rest

/-- Python dict lookup / `in` test. -/
def dlookup (k : Str) : List (Str × Str) → Option Str
  | [] => none
  | (k', v') :: rest => if k' = k then some v' else dlookup k rest

/-- The capture group of Python `re.match(r'^##\s+(.+)$', line)` for a line
(a line contains no `'\n'`, being produced by `split('\n')`).  The engine
fixes the greedy `\s+` maximally first; only when nothing is left for `.+`
does it give back a single whitespace character. -/
def reMatchHeaderGroup (line : Str) : Option Str :=
  match line with
  | '#' :: '#' :: rest =>
    let w := rest.takeWhile isSpaceC
    let t := rest.dropWhile isSpaceC
    if w.isEmpty then none
    else if t.isEmpty then
      if 2 ≤ w.length then some (w.drop (w.length - 1)) else none
    else some t
  | _ => none

/-- The section name a line contributes: `match.group(1).strip()`. -/
def headerName (line : Str) : Option Str :=
  (reMatchHeaderGroup line).map strip

/-- The loop body of `AgentSpecValidator._extract_sections`: `cur` is
`current_section` (`none` for Python's `None`), `acc` the reversed
`current_content`, `m` the `sections` dict.  The guards
`if current_section:` / `elif current_section:` test string *truthiness*:
they are false both for `None` and for the empty string, so a section whose
stripped heading name is empty is never flushed and accumulates no lines. -/
def extractLoop : List Str → Option Str → List Str → List (Str × Str) → List (Str × Str)
  | [], cur, acc, m =>
    match cur with
    | some s => if s.isEmpty then m else dinsert s (joinNl acc.reverse) m
    | none => m
  | line :: ls, cur, acc, m =>
    match headerName line with
    | some name =>
      let m' :=
        match cur with
        | some s => if s.isEmpty then m else dinsert s (joinNl acc.reverse) m
        | none => m
      extractLoop ls (some name) [] m'
    | none =>
      match cur with
      | some s =>
        if s.isEmpty then extractLoop ls cur acc m
        else extractLoop ls cur (line :: acc) m
      | none => extractLoop ls none acc m

/-- The section extractor `AgentSpecValidator._extract_sections`. -/
def extract_sections (content : Str) : List (Str × Str) :=
  extractLoop (splitOnNl content) none [] []

/-- Python substring test `needle in hay` (also `re.search` of a literal). -/
def containsSub (needle : Str) : Str → Bool
  | [] => needle.isEmpty
  | s@(_ :: cs) => needle.isPrefixOf s || containsSub needle cs

/-- The lazy capture `(.+?)` bounded by the lookahead `(?=\n###|\n##|\Z)`
(equivalently `(?=\n##|\Z)`, since `\n###` begins with `\n##`): the minimal
non-empty prefix whose remainder is empty or begins with `"\n##"`. -/
def lazyTail : Str → Str
  | [] => []
  | c :: cs =>
    if (sToL "\n##").isPrefixOf (c :: cs) then [] else c :: lazyTail cs

def lazyBody : Str → Str
  | [] => []
  | c :: cs => c :: lazyTail cs

/-- One attempt of the pattern `LIT\s+(.+?)(?=\n##|\Z)` (DOTALL) anchored at
the start of `s`: the greedy `\s+` takes the maximal whitespace run, backing
off a single character only when `.+` would otherwise be empty. -/
def matchSectionAt (lit : Str) (s : Str) : Option Str :=
  if lit.isPrefixOf s then
    let rest := s.drop lit.length
    let w := rest.takeWhile isSpaceC
    let t := rest.dropWhile isSpaceC
    if w.isEmpty then none
    else if t.isEmpty then
      if 2 ≤ w.length then some (w.drop (w.length - 1)) else none
    else some (lazyBody t)
  else none

/-- Python `re.search(r'LIT\s+(.+?)(?=\n##|\Z)', content, re.DOTALL)`:
the leftmost position at which the whole pattern matches wins. -/
def searchSection (lit : Str) : Str → Option Str
  | [] => matchSectionAt lit []
  | s@(_ :: cs) =>
    match matchSectionAt lit s with
    | some b => some b
    | none => searchSection lit cs

/-- One attempt of `` `agent\.([a-z-]+)\. `` anchored at the start of `s`:
on success, the captured token and the remainder after the whole match. -/
def isTokChar (c : Char) : Bool := ('a' ≤ c && c ≤ 'z') || c = '-'

def matchEventAt (s : Str) : Option (Str × Str) :=
  if (sToL "`agent.").isPrefixOf s then
    let rest := s.drop 7
    let tok := rest.takeWhile isTokChar
    let rest2 := rest.dropWhile isTokChar
    if tok.isEmpty then none
    else
      match rest2 with
      | '.' :: r => some (tok, r)
      | _ => none
  else none

/-- Python `re.findall(r'`agent\.([a-z-]+)\.', body)`: scan left to right,
non-overlapping; resume after each full match.  `fuel` bounds the scan by the
initial length (each step strictly shortens the text). -/
def findEventsAux : Nat → Str → List Str
  | 0, _ => []
  | Nat.succ fuel, s =>
    match s with
    | [] => []
    | _ :: cs =>
      match matchEventAt s with
      | some (tok, r) => tok :: findEventsAux fuel r
      | none => findEventsAux fuel cs

def findall_events (s : Str) : List Str := findEventsAux s.length s

/-- Python `pathlib.PurePath(name).stem` for a bare file name: drop the final
suffix when a dot occurs at an interior position. -/
def stem (name : Str) : Str :=
  let k := (name.reverse.takeWhile (fun c => ¬ c = '.')).length
  if k = name.length then name
  else
    let i := name.length - 1 - k
    if 0 < i ∧ i < name.length - 1 then name.take i else name

structure ValidationError where
  filename : Str
  error_type : Str
  details : Str
deriving DecidableEq, Repr

def mkError (f t d : Str) : ValidationError := ⟨f, t, d⟩

/-- Rendering of a finding, `ValidationError.__str__`. -/
def errStr (e : ValidationError) : Str :=
  sToL "❌ " ++ e.filename ++ sToL ": [" ++ e.error_type ++ sToL "] " ++ e.details

def REQUIRED_SECTIONS : List Str :=
  [sToL "Agent Name", sToL "Overview", sToL "Responsibilities",
   sToL "Capabilities", sToL "Triggers & Activation",
   sToL "Operational Guidelines", sToL "Telemetry & Monitoring",
   sToL "Safety & Security", sToL "Integration Points",
   sToL "Runbooks & Documentation", sToL "Ownership & Maintenance",
   sToL "Change Log"]

def REQUIRED_SUBSECTIONS : List (Str × List Str) :=
  [(sToL "Responsibilities",
      [sToL "Primary Responsibilities", sToL "Secondary Responsibilities"]),
   (sToL "Capabilities", [sToL "Core Capabilities", sToL "Technical Skills"]),
   (sToL "Operational Guidelines",
      [sToL "Decision Framework", sToL "Quality Standards", sToL "Constraints"]),
   (sToL "Telemetry & Monitoring",
      [sToL "Events to Track", sToL "Metrics to Monitor",
       sToL "Monitoring Dashboard"]),
   (sToL "Safety & Security",
      [sToL "Safety Considerations", sToL "Security Requirements",
       sToL "Failure Handling"]),
   (sToL "Integration Points",
      [sToL "Dependencies", sToL "Interactions with Other Agents"]),
   (sToL "Runbooks & Documentation",
      [sToL "Runbook Links", sToL "Related Documentation"]),
   (sToL "Ownership & Maintenance", [])]

def REQUIRED_OWNERSHIP_FIELDS : List Str :=
  [sToL "Owner", sToL "Backup Owner", sToL "Last Updated",
   sToL "Review Frequency"]

/-- Check one of `AgentSpecValidator._check_required_sections`. -/
def check_required_sections (filename : Str) (sections : List (Str × Str)) :
    List ValidationError :=
  REQUIRED_SECTIONS.filterMap fun req =>
    if dlookup req sections = none then
      some (mkError filename (sToL "MISSING_SECTION")
        (sToL "Required section '## " ++ req ++ sToL "' not found"))
    else none

/-- Check two, `AgentSpecValidator._check_required_subsections` (its `content` argument
is unused in the source as well). -/
def check_required_subsections (filename : Str) (_content : Str)
    (sections : List (Str × Str)) : List ValidationError :=
  REQUIRED_SUBSECTIONS.flatMap fun sp =>
    match dlookup sp.1 sections with
    | none => []
    | some body =>
      sp.2.filterMap fun sub =>
        if ¬ containsSub (sToL "### " ++ sub) body then
          some (mkError filename (sToL "MISSING_SUBSECTION")
            (sToL "Required subsection '### " ++ sub ++
             sToL "' not found in '## " ++ sp.1 ++ sToL "'"))
        else none

def ownershipFieldPat (field : Str) : Str := sToL "**" ++ field ++ sToL "**:"

def ownershipFieldErr (filename field : Str) : ValidationError :=
  mkError filename (sToL "MISSING_FIELD")
    (sToL "Required field '**" ++ field ++
     sToL ":**' not found in Ownership & Maintenance")

/-- Check three, `AgentSpecValidator._check_ownership_fields`. -/
def check_ownership_fields (filename content : Str) : List ValidationError :=
  match searchSection (sToL "## Ownership & Maintenance") content with
  | none => []
  | some body =>
    REQUIRED_OWNERSHIP_FIELDS.filterMap fun field =>
      if ¬ containsSub (ownershipFieldPat field) body then
        some (ownershipFieldErr filename field)
      else none

def roleErr (filename : Str) : ValidationError :=
  mkError filename (sToL "MISSING_FIELD")
    (sToL "Required field '**Role:**' not found near the top of the file")

/-- Check four, `AgentSpecValidator._check_role_field`. -/
def check_role_field (filename content : Str) : List ValidationError :=
  if ¬ containsSub (sToL "**Role**:") (content.take 500) then
    [roleErr filename]
  else []

def telemetryErr (filename agent_name : Str) : ValidationError :=
  mkError filename (sToL "TELEMETRY_NAMING")
    (sToL "Telemetry events should follow pattern `agent." ++ agent_name ++
     sToL ".*`")

/-- Check five, `AgentSpecValidator._check_telemetry_events`. -/
def check_telemetry_events (filename content : Str) : List ValidationError :=
  match searchSection (sToL "### Events to Track") content with
  | none => []
  | some body =>
    let agent_name := stem filename
    let events := findall_events body
    if events.isEmpty then []
    else if (events.filter (fun e => e = agent_name)).isEmpty then
      [telemetryErr filename agent_name]
    else []

/-- The outcome of `filepath.read_text(encoding='utf-8')`. -/
inductive ReadResult where
  | ok (content : Str)
  | failed (msg : Str)
deriving DecidableEq

/-- Validation of one file, `AgentSpecValidator.validate_file`: the findings appended for it. -/
def validate_file (filename : Str) : ReadResult → List ValidationError
  | .failed e =>
    [mkError filename (sToL "READ_ERROR") (sToL "Failed to read file: " ++ e)]
  | .ok content =>
    let sections := extract_sections content
    check_required_sections filename sections ++
    check_required_subsections filename content sections ++
    check_ownership_fields filename content ++
    check_role_field filename content ++
    check_telemetry_events filename content

/-- Lexicographic order on file names (Python string `<` on code points). -/
def strLt : Str → Str → Bool
  | [], [] => false
  | [], _ :: _ => true
  | _ :: _, [] => false
  | a :: as, b :: bs =>
    if a.val < b.val then true
    else if b.val < a.val then false
    else strLt as bs

def insertByName (x : Str × ReadResult) :
    List (Str × ReadResult) → List (Str × ReadResult)
  | [] => [x]
  | y :: ys => if strLt y.1 x.1 then y :: insertByName x ys else x :: y :: ys

/-- Python `sorted(agent_files)`. -/
def sortByName : List (Str × ReadResult) → List (Str × ReadResult)
  | [] => []
  | x :: xs => insertByName x (sortByName xs)

/-- The validation loop of `validate_all` over the (sorted) candidate files. -/
def runFiles (files : List (Str × ReadResult)) : List ValidationError :=
  files.flatMap fun p => validate_file p.1 p.2

/-- The driver `AgentSpecValidator.validate_all`: the directory-existence test and the
glob are external collaborators, modelled as the flag `dirExists` and the
list of `(name, read outcome)` pairs the glob would yield.  Returns the
boolean result together with the accumulated `self.errors`. -/
def validate_all (dirExists : Bool) (files : List (Str × ReadResult)) :
    Bool × List ValidationError :=
  if ¬ dirExists then (false, [])
  else
    let agent_files := files.filter fun p =>
      ¬ p.1 = sToL "TEMPLATE.md" && ¬ p.1 = sToL "README.md"
    if agent_files.isEmpty then (true, [])
    else
      let errs := runFiles (sortByName agent_files)
      (errs.isEmpty, errs)

/-- Exit status, from the call `sys.exit(0 if success else 1)` in `main`. -/
def exit_code (dirExists : Bool) (files : List (Str × ReadResult)) : Nat :=
  if (validate_all dirExists files).1 then 0 else 1

/-- Build a document from its lines (the inverse of `split('\n')`). -/
def mkDoc (lines : List String) : Str := joinNl (lines.map sToL)

/-- A document that passes every check (identity `myagent`). -/
def conformingDocLines : List String :=
  ["**Role**: Helper", "",
   "## Agent Name", "myagent", "",
   "## Overview", "ok", "",
   "## Responsibilities", "### Primary Responsibilities",
   "### Secondary Responsibilities", "",
   "## Capabilities", "### Core Capabilities", "### Technical Skills", "",
   "## Triggers & Activation", "ok", "",
   "## Operational Guidelines", "### Decision Framework",
   "### Quality Standards", "### Constraints", "",
   "## Telemetry & Monitoring", "### Metrics to Monitor",
   "### Monitoring Dashboard", "### Events to Track", "none yet", "",
   "## Safety & Security", "`agent.other.x` here",
   "### Safety Considerations", "### Security Requirements",
   "### Failure Handling", "",
   "## Integration Points", "### Dependencies",
   "### Interactions with Other Agents", "",
   "## Runbooks & Documentation", "### Runbook Links",
   "### Related Documentation", "",
   "## Ownership & Maintenance", "- **Owner**: a", "- **Backup Owner**: b",
   "- **Last Updated**: c", "- **Review Frequency**: d", "",
   "## Change Log", "- init", ""]

def conformingDoc : Str := mkDoc conformingDocLines

/-- The same document with the required heading line `## Safety & Security`
deleted. -/
def delHeadingDoc : Str :=
  mkDoc (conformingDocLines.filter (fun l => ¬ l = "## Safety & Security"))

/-- A document whose `Ownership & Maintenance` body per the spec (up to the
next top-level heading or end of text) holds all four bold fields, but where
a `###` line interrupts the regex capture. -/
def ownershipCex : Str :=
  mkDoc ["## Ownership & Maintenance", "intro", "### Notes",
         "- **Owner**: a", "- **Backup Owner**: b", "- **Last Updated**: c",
         "- **Review Frequency**: d", ""]

/-- Modelled from the spec's words for claim C4 only (the source computes the
body differently): the `Ownership & Maintenance` body runs from the heading
up to the next *top-level* heading (a line starting with exactly two `#`
followed by whitespace) or the end of text. -/
def specTopLevelStop : Str → Bool
  | '\n' :: '#' :: '#' :: c :: _ => isSpaceC c
  | _ => false

def specTopLevelTail : Str → Str
  | [] => []
  | c :: cs => if specTopLevelStop (c :: cs) then [] else c :: specTopLevelTail cs

def dropThroughLit (lit : Str) : Str → Option Str
  | [] => if lit.isEmpty then some [] else none
  | s@(_ :: cs) =>
    if lit.isPrefixOf s then some (s.drop lit.length)
    else dropThroughLit lit cs

def specOwnershipBody (content : Str) : Option Str :=
  (dropThroughLit (sToL "## Ownership & Maintenance") content).map
    specTopLevelTail

/-- A document whose only `**Role**:` label sits past the 500-character
window. -/
def farRoleDoc : Str := List.replicate 500 ' ' ++ sToL "**Role**:"

/- ===================== helper lemmas ===================== -/

theorem dlookup_dinsert_self (k v : Str) (m : List (Str × Str)) :
    dlookup k (dinsert k v m) = some v := by
  induction m with
  | nil => simp [dinsert, dlookup]
  | cons p rest ih =>
    by_cases h : p.1 = k <;> simp [dinsert, dlookup, h, ih]

theorem dlookup_dinsert_ne {k k' : Str} (h : k' ≠ k) (v : Str)
    (m : List (Str × Str)) : dlookup k (dinsert k' v m) = dlookup k m := by
  induction m with
  | nil => simp [dinsert, dlookup, h]
  | cons p rest ih =>
    obtain ⟨a, b⟩ := p
    by_cases h1 : a = k'
    · have ha : ¬ (a = k) := by rw [h1]; exact h
      simp only [dinsert, if_pos h1, dlookup]
      rw [if_neg h, if_neg ha]
    · simp only [dinsert, if_neg h1, dlookup]
      by_cases h2 : a = k
      · rw [if_pos h2, if_pos h2]
      · rw [if_neg h2, if_neg h2, ih]

theorem extractLoop_lookup_of_not_mem {k : Str} :
    ∀ (lines : List Str) (cur : Option Str) (acc : List Str)
      (m : List (Str × Str)),
      (∀ l ∈ lines, headerName l ≠ some k) → cur ≠ some k →
      dlookup k (extractLoop lines cur acc m) = dlookup k m := by
  intro lines
  induction lines with
  | nil =>
    intro cur acc m _ hcur
    cases cur with
    | none => rfl
    | some s =>
      have hs : s ≠ k := fun h => hcur (h ▸ rfl)
      by_cases he : s.isEmpty = true
      · simp only [extractLoop]
        rw [if_pos he]
      · simp only [extractLoop]
        rw [if_neg he]
        exact dlookup_dinsert_ne hs _ m
  | cons line ls ih =>
    intro cur acc m hno hcur
    have hline : headerName line ≠ some k := hno line (by simp)
    have hls : ∀ l ∈ ls, headerName l ≠ some k := fun l hl => hno l (by simp [hl])
    cases hn : headerName line with
    | some name =>
      have hname : name ≠ k := fun h => hline (by rw [hn, h])
      cases cur with
      | none =>
        simp only [extractLoop, hn]
        exact ih (some name) [] m hls (by simp [hname])
      | some s =>
        have hs : s ≠ k := fun h => hcur (h ▸ rfl)
        simp only [extractLoop, hn]
        rw [ih (some name) [] _ hls (by simp [hname])]
        by_cases he : s.isEmpty = true
        · rw [if_pos he]
        · rw [if_neg he]
          exact dlookup_dinsert_ne hs _ m
    | none =>
      cases cur with
      | none =>
        simp only [extractLoop, hn]
        exact ih none acc m hls hcur
      | some s =>
        simp only [extractLoop, hn]
        by_cases he : s.isEmpty = true
        · rw [if_pos he]
          exact ih (some s) acc m hls hcur
        · rw [if_neg he]
          exact ih (some s) (line :: acc) m hls hcur

theorem extractLoop_lookup_cur (k : Str) (hk : ¬ k.isEmpty = true) :
    ∀ (lines acc : List Str) (m : List (Str × Str)),
      (∀ l ∈ lines, headerName l ≠ some k) →
      dlookup k (extractLoop lines (some k) acc m) =
        some (joinNl (acc.reverse ++
          lines.takeWhile (fun l => (headerName l).isNone))) := by
  intro lines
  induction lines with
  | nil =>
    intro acc m _
    simp only [extractLoop]
    rw [if_neg hk]
    simpa using dlookup_dinsert_self k _ m
  | cons line ls ih =>
    intro acc m hno
    have hline : headerName line ≠ some k := hno line (by simp)
    have hls : ∀ l ∈ ls, headerName l ≠ some k := fun l hl => hno l (by simp [hl])
    cases hn : headerName line with
    | some name =>
      have hname : name ≠ k := fun h => hline (by rw [hn, h])
      simp only [extractLoop, hn]
      rw [extractLoop_lookup_of_not_mem ls (some name) [] _ hls (by simp [hname])]
      rw [if_neg hk, dlookup_dinsert_self]
      simp [List.takeWhile_cons, hn]
    | none =>
      simp only [extractLoop, hn]
      rw [if_neg hk]
      rw [ih (line :: acc) m hls]
      simp [List.takeWhile_cons, hn, List.append_assoc]

theorem extractLoop_lookup_last {k : Str} {h : Str} {l2 : List Str}
    (hh : headerName h = some k) (hk : k ≠ [])
    (h2 : ∀ l ∈ l2, headerName l ≠ some k) :
    ∀ (pre : List Str) (cur : Option Str) (acc : List Str)
      (m : List (Str × Str)),
      dlookup k (extractLoop (pre ++ h :: l2) cur acc m) =
        some (joinNl (l2.takeWhile (fun l => (headerName l).isNone))) := by
  have hk2 : ¬ k.isEmpty = true := fun he => hk (List.isEmpty_iff.mp he)
  intro pre
  induction pre with
  | nil =>
    intro cur acc m
    cases cur <;>
      · simp only [List.nil_append, extractLoop, hh]
        rw [extractLoop_lookup_cur k hk2 l2 [] _ h2]
        simp
  | cons p pre' ih =>
    intro cur acc m
    cases hn : headerName p with
    | some name =>
      cases cur <;> simp only [List.cons_append, extractLoop, hn] <;> exact ih _ _ _
    | none =>
      cases cur with
      | none =>
        simp only [List.cons_append, extractLoop, hn]
        exact ih _ _ _
      | some s =>
        simp only [List.cons_append, extractLoop, hn]
        by_cases he : s.isEmpty = true
        · rw [if_pos he]
          exact ih _ _ _
        · rw [if_neg he]
          exact ih _ _ _

/- ===================== claims ===================== -/

/-- C1 (counterexample): extracting `"## A\nx\n## A\ny\n"` binds section
`A` to `"y\n"` — the body of the last occurrence including the trailing
empty line — not to exactly `"y"` as the claim states. -/
theorem claim_C1_counterexample :
    dlookup (sToL "A") (extract_sections (sToL "## A\nx\n## A\ny\n")) ≠
      some (sToL "y") ∧
    dlookup (sToL "A") (extract_sections (sToL "## A\nx\n## A\ny\n")) =
      some (sToL "y\n") := by decide

/-- C1 (amended): for every text whose line list has a last header whose
non-empty trimmed name is `k`, the Section Map binds `k` to the body of that
last occurrence (its following lines up to the next header, newline-joined);
in particular extracting `"## A\nx\n## A\ny\n"` binds `"A"` to `"y\n"`.  A
header whose trimmed name is empty is falsy under Python truthiness and is
never bound at all. -/
theorem claim_C1 :
    (∀ (content k : Str) (pre : List Str) (h : Str) (l2 : List Str),
        splitOnNl content = pre ++ h :: l2 →
        headerName h = some k → k ≠ [] →
        (∃ h' ∈ pre, headerName h' = some k) →
        (∀ l ∈ l2, headerName l ≠ some k) →
        dlookup k (extract_sections content) =
          some (joinNl (l2.takeWhile (fun l => (headerName l).isNone)))) ∧
    dlookup (sToL "A") (extract_sections (sToL "## A\nx\n## A\ny\n")) =
      some (sToL "y\n") ∧
    extract_sections (sToL "##  \nx\n##  \ny\n") = [] := by
  refine ⟨?_, by decide, by decide⟩
  intro content k pre h l2 hsplit hh hk _hrep h2
  unfold extract_sections
  rw [hsplit]
  exact extractLoop_lookup_last hh hk h2 pre none [] []

theorem telemetry_unfold_some {filename content body : Str}
    (hb : searchSection (sToL "### Events to Track") content = some body) :
    check_telemetry_events filename content =
      (if (findall_events body).isEmpty then []
       else if ((findall_events body).filter
           (fun e => e = stem filename)).isEmpty then
         [telemetryErr filename (stem filename)]
       else []) := by
  unfold check_telemetry_events
  rw [hb]

theorem telemetry_unfold_none {filename content : Str}
    (hb : searchSection (sToL "### Events to Track") content = none) :
    check_telemetry_events filename content = [] := by
  unfold check_telemetry_events
  rw [hb]

/-- C2: behaviour of the telemetry naming check: with a located
`Events to Track` body, a non-empty token list none of which equals the
document identity yields exactly the one `TELEMETRY_NAMING` finding, an
empty token list yields none, and an unlocated body yields none. -/
theorem claim_C2 (filename content : Str) :
    (∀ body, searchSection (sToL "### Events to Track") content = some body →
      (findall_events body ≠ [] ∧ stem filename ∉ findall_events body →
        check_telemetry_events filename content =
          [telemetryErr filename (stem filename)]) ∧
      (findall_events body = [] →
        check_telemetry_events filename content = [])) ∧
    (searchSection (sToL "### Events to Track") content = none →
      check_telemetry_events filename content = []) := by
  refine ⟨fun body hb => ⟨?_, ?_⟩, fun hn => telemetry_unfold_none hn⟩
  · rintro ⟨hne, hnm⟩
    rw [telemetry_unfold_some hb]
    have h1 : (findall_events body).isEmpty = false :=
      List.isEmpty_eq_false.mpr hne
    have h2 : ((findall_events body).filter (fun e => e = stem filename)) = [] := by
      refine List.filter_eq_nil_iff.mpr fun a ha => ?_
      simp only [decide_eq_true_eq]
      intro hak
      exact hnm (hak ▸ ha)
    simp [h1, h2]
  · intro h0
    rw [telemetry_unfold_some hb, h0]
    simp

/-- Witness for C2: identity `myagent`, body holding only `agent.other.` →
exactly one `TELEMETRY_NAMING` finding. -/
theorem claim_C2_witness :
    check_telemetry_events (sToL "myagent.md")
      (sToL "### Events to Track\n`agent.other.x`\n") =
      [telemetryErr (sToL "myagent.md") (sToL "myagent")] := by
  have h := ((claim_C2 (sToL "myagent.md")
      (sToL "### Events to Track\n`agent.other.x`\n")).1
      (sToL "`agent.other.x`\n") (by decide)).1 ⟨by decide, by decide⟩
  have hstem : stem (sToL "myagent.md") = sToL "myagent" := by decide
  rw [hstem] at h
  exact h

theorem mem_check_required_sections {f : Str} {sections : List (Str × Str)}
    {e : ValidationError} (h : e ∈ check_required_sections f sections) :
    e.filename = f := by
  unfold check_required_sections at h
  obtain ⟨a, -, ha⟩ := List.mem_filterMap.mp h
  split at ha
  · cases Option.some.inj ha; rfl
  · cases ha

theorem mem_check_required_subsections {f c : Str}
    {sections : List (Str × Str)} {e : ValidationError}
    (h : e ∈ check_required_subsections f c sections) : e.filename = f := by
  unfold check_required_subsections at h
  obtain ⟨sp, -, hsp⟩ := List.mem_flatMap.mp h
  rcases hd : dlookup sp.1 sections with - | body
  · rw [hd] at hsp; cases hsp
  · rw [hd] at hsp
    obtain ⟨a, -, ha⟩ := List.mem_filterMap.mp hsp
    split at ha
    · cases Option.some.inj ha; rfl
    · cases ha

theorem mem_check_ownership_fields {f c : Str} {e : ValidationError}
    (h : e ∈ check_ownership_fields f c) : e.filename = f := by
  unfold check_ownership_fields at h
  rcases hd : searchSection (sToL "## Ownership & Maintenance") c with - | body
  · rw [hd] at h; cases h
  · rw [hd] at h
    obtain ⟨a, -, ha⟩ := List.mem_filterMap.mp h
    split at ha
    · cases Option.some.inj ha; rfl
    · cases ha

theorem mem_check_role_field {f c : Str} {e : ValidationError}
    (h : e ∈ check_role_field f c) : e.filename = f := by
  unfold check_role_field at h
  split at h
  · rw [List.mem_singleton] at h; subst h; rfl
  · cases h

theorem mem_check_telemetry_events {f c : Str} {e : ValidationError}
    (h : e ∈ check_telemetry_events f c) : e.filename = f := by
  rcases hd : searchSection (sToL "### Events to Track") c with - | body
  · rw [telemetry_unfold_none hd] at h; cases h
  · rw [telemetry_unfold_some hd] at h
    split at h
    · cases h
    · split at h
      · rw [List.mem_singleton] at h; subst h; rfl
      · cases h

theorem mem_validate_file_filename {f : Str} {r : ReadResult}
    {e : ValidationError} (h : e ∈ validate_file f r) : e.filename = f := by
  cases r with
  | failed msg =>
    unfold validate_file at h
    rw [List.mem_singleton] at h; subst h; rfl
  | ok content =>
    unfold validate_file at h
    simp only [List.mem_append] at h
    rcases h with ((((h | h) | h) | h) | h)
    · exact mem_check_required_sections h
    · exact mem_check_required_subsections h
    · exact mem_check_ownership_fields h
    · exact mem_check_role_field h
    · exact mem_check_telemetry_events h

/-- C3 (counterexample): findings are reported under the full file name
`myagent.md` (with extension), while the telemetry check accepts the token
`myagent` — the stem — so the two identities are not the same string. -/
theorem claim_C3_counterexample :
    (validate_file (sToL "myagent.md") (.ok (sToL ""))).all
        (fun e => e.filename = sToL "myagent.md") = true ∧
    (validate_file (sToL "myagent.md") (.ok (sToL ""))).head? =
      some (mkError (sToL "myagent.md") (sToL "MISSING_SECTION")
        (sToL "Required section '## Agent Name' not found")) ∧
    errStr (mkError (sToL "myagent.md") (sToL "MISSING_SECTION")
        (sToL "Required section '## Agent Name' not found")) =
      sToL "❌ myagent.md: [MISSING_SECTION] Required section '## Agent Name' not found" ∧
    check_telemetry_events (sToL "myagent.md")
      (sToL "### Events to Track\n`agent.myagent.x`\n") = [] ∧
    stem (sToL "myagent.md") = sToL "myagent" ∧
    ¬ sToL "myagent.md" = sToL "myagent" := by decide

/-- C3 (amended): every finding for a document is reported under the full
base file name (with extension), each rendered as
`❌ <filename>: [<kind>] <detail>`; the telemetry naming check instead
compares tokens against the stem (base name without extension). -/
theorem claim_C3 (filename : Str) (r : ReadResult) :
    (∀ e ∈ validate_file filename r, e.filename = filename ∧
        errStr e = sToL "❌ " ++ filename ++ sToL ": [" ++ e.error_type ++
          sToL "] " ++ e.details) ∧
    (∀ content body,
        searchSection (sToL "### Events to Track") content = some body →
        stem filename ∈ findall_events body →
        check_telemetry_events filename content = []) := by
  constructor
  · intro e he
    have hf : e.filename = filename := mem_validate_file_filename he
    refine ⟨hf, ?_⟩
    show sToL "❌ " ++ e.filename ++ sToL ": [" ++ e.error_type ++
        sToL "] " ++ e.details = _
    rw [hf]
  · intro content body hb hmem
    rw [telemetry_unfold_some hb]
    have h1 : (findall_events body).isEmpty = false :=
      List.isEmpty_eq_false.mpr (by intro hnil; rw [hnil] at hmem; cases hmem)
    have h2 : ((findall_events body).filter
        (fun e => e = stem filename)).isEmpty = false := by
      refine List.isEmpty_eq_false.mpr ?_
      intro hf
      have : stem filename ∈ (findall_events body).filter
          (fun e => e = stem filename) :=
        List.mem_filter.mpr ⟨hmem, by simp⟩
      rw [hf] at this
      cases this
    simp [h1, h2]

/-- Witness for C3: the first finding of an empty `myagent.md` carries the
full file name, and a matching stem token silences the telemetry check. -/
theorem claim_C3_witness :
    (mkError (sToL "myagent.md") (sToL "MISSING_SECTION")
        (sToL "Required section '## Agent Name' not found")).filename =
      sToL "myagent.md" ∧
    check_telemetry_events (sToL "myagent.md")
      (sToL "### Events to Track\n`agent.myagent.x`\n") = [] := by
  constructor
  · exact (((claim_C3 (sToL "myagent.md") (.ok (sToL ""))).1 _ (by decide))).1
  · exact (claim_C3 (sToL "myagent.md") (.ok (sToL ""))).2 _
      (sToL "`agent.myagent.x`\n") (by decide) (by decide)

/-- Witness for C1 at the documented input. -/
theorem claim_C1_witness :
    dlookup (sToL "A") (extract_sections (sToL "## A\nx\n## A\ny\n")) =
      some (joinNl (([sToL "y", sToL ""]).takeWhile
        (fun l => (headerName l).isNone))) :=
  claim_C1.1 (sToL "## A\nx\n## A\ny\n") (sToL "A")
    [sToL "## A", sToL "x"] (sToL "## A") [sToL "y", sToL ""]
    (by decide) (by decide) (by decide)
    ⟨sToL "## A", by decide, by decide⟩ (by decide)

theorem ownershipFieldErr_inj {filename f1 f2 : Str}
    (h : ownershipFieldErr filename f1 = ownershipFieldErr filename f2) :
    f1 = f2 := by
  have hd := congrArg ValidationError.details h
  simp only [ownershipFieldErr, mkError] at hd
  exact List.append_cancel_left (List.append_cancel_right hd)

/-- C4 (counterexample): in this document every required ownership field
occurs between the heading and the next top-level heading (there is none, so
up to end of text), yet the check reports all four fields missing, because
the captured body stops at the `### Notes` line. -/
theorem claim_C4_counterexample :
    specOwnershipBody ownershipCex =
      some (sToL "\nintro\n### Notes\n- **Owner**: a\n- **Backup Owner**: b\n- **Last Updated**: c\n- **Review Frequency**: d\n") ∧
    (REQUIRED_OWNERSHIP_FIELDS.all fun field =>
      containsSub (ownershipFieldPat field)
        (sToL "\nintro\n### Notes\n- **Owner**: a\n- **Backup Owner**: b\n- **Last Updated**: c\n- **Review Frequency**: d\n")) = true ∧
    searchSection (sToL "## Ownership & Maintenance") ownershipCex =
      some (sToL "intro") ∧
    check_ownership_fields (sToL "a.md") ownershipCex =
      [ownershipFieldErr (sToL "a.md") (sToL "Owner"),
       ownershipFieldErr (sToL "a.md") (sToL "Backup Owner"),
       ownershipFieldErr (sToL "a.md") (sToL "Last Updated"),
       ownershipFieldErr (sToL "a.md") (sToL "Review Frequency")] := by
  decide

/-- C4 (amended): the ownership check locates the body by text search; the
captured body runs from after the heading's whitespace up to the next line
beginning with two heading markers — which includes deeper `###` headings —
or end of text.  If the heading is not located it emits nothing; otherwise,
for each required field it emits the `MISSING_FIELD` finding for that field
exactly when the captured body lacks the bold label followed by a colon, and
the emitted findings are pairwise distinct (one per missing field). -/
theorem claim_C4 (filename content : Str) :
    (searchSection (sToL "## Ownership & Maintenance") content = none →
      check_ownership_fields filename content = []) ∧
    (∀ body,
      searchSection (sToL "## Ownership & Maintenance") content = some body →
      (check_ownership_fields filename content).Nodup ∧
      ∀ field ∈ REQUIRED_OWNERSHIP_FIELDS,
        (ownershipFieldErr filename field ∈
            check_ownership_fields filename content ↔
          ¬ containsSub (ownershipFieldPat field) body)) := by
  constructor
  · intro hn
    unfold check_ownership_fields
    rw [hn]
  · intro body hb
    have hunf : check_ownership_fields filename content =
        REQUIRED_OWNERSHIP_FIELDS.filterMap fun field =>
          if ¬ containsSub (ownershipFieldPat field) body then
            some (ownershipFieldErr filename field)
          else none := by
      unfold check_ownership_fields
      rw [hb]
    rw [hunf]
    constructor
    · refine List.Nodup.filterMap ?_ (by decide)
      intro a a' b hba hba'
      have ha : b = ownershipFieldErr filename a := by
        revert hba
        split
        · intro hba; exact (Option.mem_some_iff.mp hba).symm
        · intro hba; cases hba
      have ha' : b = ownershipFieldErr filename a' := by
        revert hba'
        split
        · intro hba'; exact (Option.mem_some_iff.mp hba').symm
        · intro hba'; cases hba'
      exact ownershipFieldErr_inj (ha ▸ ha')
    · intro field hf
      constructor
      · intro hmem
        obtain ⟨a, ha, hfa⟩ := List.mem_filterMap.mp hmem
        revert hfa
        split
        · intro hfa
          have := ownershipFieldErr_inj (Option.some.inj hfa)
          intro hc
          rename_i hnc
          exact hnc (this ▸ hc)
        · intro hfa; cases hfa
      · intro hnc
        exact List.mem_filterMap.mpr ⟨field, hf, by rw [if_pos hnc]⟩

/-- Witness for C4: a document with no ownership heading produces no
ownership findings, and in `ownershipCex` the `Owner` finding is present
because the captured body `"intro"` lacks the label. -/
theorem claim_C4_witness :
    check_ownership_fields (sToL "a.md") (sToL "nothing here") = [] ∧
    ownershipFieldErr (sToL "a.md") (sToL "Owner") ∈
      check_ownership_fields (sToL "a.md") ownershipCex := by
  constructor
  · exact (claim_C4 (sToL "a.md") (sToL "nothing here")).1 (by decide)
  · exact (((claim_C4 (sToL "a.md") ownershipCex).2 (sToL "intro")
      (by decide)).2 (sToL "Owner") (by decide)).mpr (by decide)


theorem strip_of_all_space {s : Str} (h : ∀ c ∈ s, isSpaceC c = true) :
    strip s = [] := by
  unfold strip
  rw [List.dropWhile_eq_nil_iff.mpr h]
  rfl

theorem strip_dropWhile (s : Str) :
    strip (s.dropWhile isSpaceC) = strip s := by
  unfold strip
  rw [List.dropWhile_idempotent]

theorem reMatchHeaderGroup_isSome_iff (line : Str) :
    (reMatchHeaderGroup line).isSome = true ↔
      ∃ w t : Str, line = '#' :: '#' :: (w ++ t) ∧ w ≠ [] ∧
        (∀ c ∈ w, isSpaceC c = true) ∧ t ≠ [] := by
  unfold reMatchHeaderGroup
  split
  · rename_i rest
    dsimp only
    by_cases hW : (rest.takeWhile isSpaceC).isEmpty
    · rw [if_pos hW]
      simp only [Option.isSome_none, Bool.false_eq_true, false_iff]
      rintro ⟨w, t, heq, hwne, hws, -⟩
      obtain ⟨c, w', rfl⟩ : ∃ c w', w = c :: w' := by
        cases w with
        | nil => exact absurd rfl hwne
        | cons c w' => exact ⟨c, w', rfl⟩
      have hc : isSpaceC c = true := hws c (by simp)
      have hrest : rest = c :: (w' ++ t) := by simpa using heq
      rw [hrest, List.takeWhile_cons_of_pos hc] at hW
      simp at hW
    · rw [if_neg hW]
      by_cases hT : (rest.dropWhile isSpaceC).isEmpty
      · rw [if_pos hT]
        have hTnil : rest.dropWhile isSpaceC = [] := List.isEmpty_iff.mp hT
        have hrw : rest.takeWhile isSpaceC = rest := by
          have h1 := List.takeWhile_append_dropWhile (p := isSpaceC) (l := rest)
          rw [hTnil, List.append_nil] at h1
          exact h1
        by_cases hL : 2 ≤ (rest.takeWhile isSpaceC).length
        · rw [if_pos hL]
          simp only [Option.isSome_some, true_iff]
          rcases hWs : rest.takeWhile isSpaceC with - | ⟨c1, - | ⟨c2, w''⟩⟩
          · rw [hWs] at hL; simp at hL
          · rw [hWs] at hL; simp at hL
          · refine ⟨[c1], c2 :: w'', ?_, by simp, ?_, by simp⟩
            · have hr12 : rest = c1 :: c2 :: w'' := by rw [← hrw, hWs]
              rw [hr12]; rfl
            · intro c hc
              have hc1 : c = c1 := by simpa using hc
              subst hc1
              exact List.mem_takeWhile_imp (l := rest) (by rw [hWs]; simp)
        · rw [if_neg hL]
          simp only [Option.isSome_none, Bool.false_eq_true, false_iff]
          rintro ⟨w, t, heq, hwne, -, htne⟩
          have hrest : rest = w ++ t := by simpa using heq
          apply hL
          rw [hrw, hrest, List.length_append]
          have h1 : 0 < w.length := List.length_pos.mpr hwne
          have h2 : 0 < t.length := List.length_pos.mpr htne
          omega
      · rw [if_neg hT]
        simp only [Option.isSome_some, true_iff]
        refine ⟨rest.takeWhile isSpaceC, rest.dropWhile isSpaceC,
          by rw [List.takeWhile_append_dropWhile],
          fun h => hW (by rw [h]; rfl),
          fun c hc => List.mem_takeWhile_imp hc,
          fun h => hT (by rw [h]; rfl)⟩
  · rename_i hnotpat
    simp only [Option.isSome_none, Bool.false_eq_true, false_iff]
    rintro ⟨w, t, heq, -, -, -⟩
    exact hnotpat (w ++ t) heq

/-- C5: a line is recognised as a section header exactly when it consists of
two heading markers, a non-empty whitespace run, and a non-empty remainder;
on success the section name is the trimmed remainder after the markers; a
line beginning with three heading markers is never recognised. -/
theorem claim_C5 (line : Str) (_hnl : ('\n' : Char) ∉ line) :
    ((reMatchHeaderGroup line).isSome = true ↔
      ∃ w t : Str, line = '#' :: '#' :: (w ++ t) ∧ w ≠ [] ∧
        (∀ c ∈ w, isSpaceC c = true) ∧ t ≠ []) ∧
    (∀ g, reMatchHeaderGroup line = some g →
      headerName line = some (strip (line.drop 2))) ∧
    (∀ r3, line = '#' :: '#' :: '#' :: r3 → reMatchHeaderGroup line = none) := by
  refine ⟨reMatchHeaderGroup_isSome_iff line, ?_, ?_⟩
  · intro g hg
    have hmap : headerName line = some (strip g) := by
      unfold headerName; rw [hg]; rfl
    rw [hmap]
    refine congrArg some ?_
    revert hg
    unfold reMatchHeaderGroup
    split
    · rename_i rest
      dsimp only
      by_cases hW : (rest.takeWhile isSpaceC).isEmpty
      · rw [if_pos hW]; intro hg; cases hg
      · rw [if_neg hW]
        by_cases hT : (rest.dropWhile isSpaceC).isEmpty
        · rw [if_pos hT]
          have hTnil : rest.dropWhile isSpaceC = [] := List.isEmpty_iff.mp hT
          have hrw : rest.takeWhile isSpaceC = rest := by
            have h1 := List.takeWhile_append_dropWhile (p := isSpaceC) (l := rest)
            rw [hTnil, List.append_nil] at h1
            exact h1
          by_cases hL : 2 ≤ (rest.takeWhile isSpaceC).length
          · rw [if_pos hL]
            intro hg
            have hgd : g = (rest.takeWhile isSpaceC).drop
                ((rest.takeWhile isSpaceC).length - 1) :=
              (Option.some.inj hg).symm
            have hgs : strip g = [] := by
              refine strip_of_all_space fun c hc => ?_
              have hcW : c ∈ rest.takeWhile isSpaceC := by
                rw [hgd] at hc
                exact List.mem_of_mem_drop hc
              exact List.mem_takeWhile_imp hcW
            have hrs : strip rest = [] := by
              refine strip_of_all_space fun c hc => ?_
              have hcW : c ∈ rest.takeWhile isSpaceC := by rw [hrw]; exact hc
              exact List.mem_takeWhile_imp hcW
            show strip g = strip rest
            rw [hgs, hrs]
          · rw [if_neg hL]; intro hg; cases hg
        · rw [if_neg hT]
          intro hg
          have hgd : g = rest.dropWhile isSpaceC := (Option.some.inj hg).symm
          show strip g = strip rest
          rw [hgd, strip_dropWhile]
    · intro hg; cases hg
  · intro r3 h3
    subst h3
    cases hr : reMatchHeaderGroup ('#' :: '#' :: '#' :: r3) with
    | none => rfl
    | some g =>
      have hs : (reMatchHeaderGroup ('#' :: '#' :: '#' :: r3)).isSome = true := by
        rw [hr]; rfl
      obtain ⟨w, t, heq, hwne, hws, -⟩ :=
        (reMatchHeaderGroup_isSome_iff _).mp hs
      have hwt : '#' :: r3 = w ++ t := by simpa using heq
      obtain ⟨c, w', rfl⟩ : ∃ c w', w = c :: w' := by
        cases w with
        | nil => exact absurd rfl hwne
        | cons c w' => exact ⟨c, w', rfl⟩
      have hc : c = '#' := by
        have h5 : '#' :: r3 = c :: (w' ++ t) := hwt
        exact (List.cons.injEq _ _ _ _ ▸ h5 :
          '#' = c ∧ r3 = w' ++ t).1.symm
      have hspace : isSpaceC c = true := hws c (by simp)
      rw [hc] at hspace
      cases hspace

/-- Witness for C5 at a concrete header line. -/
theorem claim_C5_witness :
    (('\n' : Char) ∉ sToL "## Agent Name") ∧
    (((reMatchHeaderGroup (sToL "## Agent Name")).isSome = true ↔
      ∃ w t : Str, sToL "## Agent Name" = '#' :: '#' :: (w ++ t) ∧ w ≠ [] ∧
        (∀ c ∈ w, isSpaceC c = true) ∧ t ≠ []) ∧
    (∀ g, reMatchHeaderGroup (sToL "## Agent Name") = some g →
      headerName (sToL "## Agent Name") =
        some (strip ((sToL "## Agent Name").drop 2))) ∧
    (∀ r3, sToL "## Agent Name" = '#' :: '#' :: '#' :: r3 →
      reMatchHeaderGroup (sToL "## Agent Name") = none)) :=
  ⟨by decide, claim_C5 (sToL "## Agent Name") (by decide)⟩

/-- C6: the Role check inspects only the first 500 characters: it emits the
single `MISSING_FIELD` finding exactly when `**Role**:` does not occur in
that prefix, and stays silent exactly when it does — an occurrence beyond
the window is irrelevant. -/
theorem claim_C6 (filename content : Str) :
    (check_role_field filename content = [roleErr filename] ↔
      ¬ containsSub (sToL "**Role**:") (content.take 500) = true) ∧
    (check_role_field filename content = [] ↔
      containsSub (sToL "**Role**:") (content.take 500) = true) := by
  unfold check_role_field
  by_cases h : containsSub (sToL "**Role**:") (content.take 500) = true <;>
    simp [h]

/-- Witness for C6: a `**Role**:` label occurring only after 500 leading
blanks does not prevent the finding. -/
theorem claim_C6_witness :
    containsSub (sToL "**Role**:") farRoleDoc = true ∧
    check_role_field (sToL "a.md") farRoleDoc = [roleErr (sToL "a.md")] := by
  constructor
  · decide
  · exact (claim_C6 (sToL "a.md") farRoleDoc).1.mpr (by decide)

/-- C7: the run exits `0` exactly when the directory exists and the total
finding count is zero (an empty candidate set included); a missing directory
exits `1` with no document processed; any findings exit `1`. -/
theorem validate_all_false (files : List (Str × ReadResult)) :
    validate_all false files = (false, []) := by
  unfold validate_all
  rw [if_pos (by simp)]

theorem validate_all_true_empty {files : List (Str × ReadResult)}
    (h : (files.filter fun p =>
      ¬ p.1 = sToL "TEMPLATE.md" && ¬ p.1 = sToL "README.md") = []) :
    validate_all true files = (true, []) := by
  unfold validate_all
  rw [if_neg (by simp), h]
  rfl

theorem validate_all_true_nonempty {files : List (Str × ReadResult)}
    (h : (files.filter fun p =>
      ¬ p.1 = sToL "TEMPLATE.md" && ¬ p.1 = sToL "README.md") ≠ []) :
    validate_all true files =
      ((runFiles (sortByName (files.filter fun p =>
          ¬ p.1 = sToL "TEMPLATE.md" && ¬ p.1 = sToL "README.md"))).isEmpty,
       runFiles (sortByName (files.filter fun p =>
          ¬ p.1 = sToL "TEMPLATE.md" && ¬ p.1 = sToL "README.md"))) := by
  unfold validate_all
  rw [if_neg (by simp), if_neg (fun hc => h (List.isEmpty_iff.mp hc))]

/-- C7: the run exits `0` exactly when the directory exists and the total
finding count is zero (an empty candidate set included); a missing directory
exits `1` with no document processed; any findings exit `1`. -/
theorem claim_C7 (dirExists : Bool) (files : List (Str × ReadResult)) :
    (exit_code dirExists files = 0 ↔
      dirExists = true ∧ (validate_all dirExists files).2.length = 0) ∧
    (dirExists = false →
      exit_code dirExists files = 1 ∧
      validate_all dirExists files = (false, [])) ∧
    (dirExists = true →
      (files.filter fun p =>
        ¬ p.1 = sToL "TEMPLATE.md" && ¬ p.1 = sToL "README.md") = [] →
      exit_code dirExists files = 0 ∧
      validate_all dirExists files = (true, [])) := by
  cases dirExists with
  | false =>
    have hva := validate_all_false files
    have hec : exit_code false files = 1 := by
      unfold exit_code
      rw [hva]
      rfl
    refine ⟨?_, ?_, ?_⟩
    · rw [hec]
      constructor
      · intro h; cases h
      · rintro ⟨h, -⟩; cases h
    · intro h
      exact ⟨hec, hva⟩
    · intro h
      cases h
  | true =>
    refine ⟨?_, ?_, ?_⟩
    case refine_2 => intro h; cases h
    · by_cases hfe : (files.filter fun p =>
          ¬ p.1 = sToL "TEMPLATE.md" && ¬ p.1 = sToL "README.md") = []
      · have hva := validate_all_true_empty hfe
        unfold exit_code
        rw [hva]
        simp
      · have hva := validate_all_true_nonempty hfe
        unfold exit_code
        rw [hva]
        by_cases hre : runFiles (sortByName (files.filter fun p =>
            ¬ p.1 = sToL "TEMPLATE.md" && ¬ p.1 = sToL "README.md")) = []
        · simp [hre]
        · have h1 : (runFiles (sortByName (files.filter fun p =>
              ¬ p.1 = sToL "TEMPLATE.md" && ¬ p.1 = sToL "README.md"))).isEmpty
                = false :=
            List.isEmpty_eq_false.mpr hre
        
          simp [h1, hre]
    · intro h hnil
      have hva := validate_all_true_empty hnil
      have hec : exit_code true files = 0 := by
        unfold exit_code
        rw [hva]
        rfl
      exact ⟨hec, hva⟩

/-- Witness for C7: a missing directory exits `1`; an existing directory
with no candidate documents exits `0`. -/
theorem claim_C7_witness :
    exit_code false [(sToL "a.md", .ok (sToL ""))] = 1 ∧
    exit_code true [(sToL "TEMPLATE.md", .ok (sToL ""))] = 0 := by
  constructor
  · exact ((claim_C7 false [(sToL "a.md", .ok (sToL ""))]).2.1 rfl).1
  · exact ((claim_C7 true [(sToL "TEMPLATE.md", .ok (sToL ""))]).2.2 rfl
      (by decide)).1

/-- C8: a document whose read fails yields exactly the one `READ_ERROR`
finding, no finding of any other kind, and the surrounding documents'
findings are concatenated around it unchanged. -/
theorem claim_C8 (filename msg : Str) (pre post : List (Str × ReadResult)) :
    validate_file filename (.failed msg) =
      [mkError filename (sToL "READ_ERROR")
        (sToL "Failed to read file: " ++ msg)] ∧
    (mkError filename (sToL "READ_ERROR")
        (sToL "Failed to read file: " ++ msg)).error_type =
      sToL "READ_ERROR" ∧
    runFiles (pre ++ (filename, .failed msg) :: post) =
      runFiles pre ++
        (mkError filename (sToL "READ_ERROR")
          (sToL "Failed to read file: " ++ msg) :: runFiles post) := by
  refine ⟨rfl, rfl, ?_⟩
  unfold runFiles
  rw [List.flatMap_append, List.flatMap_cons]
  rfl

/-- C9 (counterexample): `conformingDoc` validates cleanly; deleting the
required heading line `## Safety & Security` produces, besides the expected
`MISSING_SECTION` finding, a brand-new `TELEMETRY_NAMING` finding — an
unrelated finding the claim says cannot appear. -/
theorem claim_C9_counterexample :
    validate_file (sToL "myagent.md") (.ok conformingDoc) = [] ∧
    validate_file (sToL "myagent.md") (.ok delHeadingDoc) =
      [mkError (sToL "myagent.md") (sToL "MISSING_SECTION")
         (sToL "Required section '## Safety & Security' not found"),
       telemetryErr (sToL "myagent.md") (sToL "myagent")] ∧
    (telemetryErr (sToL "myagent.md") (sToL "myagent")).error_type =
      sToL "TELEMETRY_NAMING" ∧
    ¬ (telemetryErr (sToL "myagent.md") (sToL "myagent")).error_type =
      sToL "MISSING_SECTION" := by
  decide

/-- C9 (amended): deleting a required heading from this conforming document
adds the `MISSING_SECTION` finding and produces no subsection or field
findings, but text after the deleted heading is absorbed into the preceding
body, which here newly exposes a telemetry token and adds a
`TELEMETRY_NAMING` finding. -/
theorem claim_C9 :
    validate_file (sToL "myagent.md") (.ok conformingDoc) = [] ∧
    mkError (sToL "myagent.md") (sToL "MISSING_SECTION")
        (sToL "Required section '## Safety & Security' not found") ∈
      validate_file (sToL "myagent.md") (.ok delHeadingDoc) ∧
    (∀ e ∈ validate_file (sToL "myagent.md") (.ok delHeadingDoc),
      ¬ e.error_type = sToL "MISSING_SUBSECTION" ∧
      ¬ e.error_type = sToL "MISSING_FIELD") ∧
    telemetryErr (sToL "myagent.md") (sToL "myagent") ∈
      validate_file (sToL "myagent.md") (.ok delHeadingDoc) := by
  decide

theorem matchEventAt_tok {s tok r : Str}
    (h : matchEventAt s = some (tok, r)) : ∀ c ∈ tok, isTokChar c = true := by
  unfold matchEventAt at h
  split at h
  · dsimp only at h
    split at h
    · cases h
    · split at h
      · injection h with h1
        injection h1 with h2 h3
        subst h2
        intro c hc
        exact List.mem_takeWhile_imp hc
      · cases h
  · cases h

theorem findEventsAux_tokChar :
    ∀ (fuel : Nat) (s t : Str), t ∈ findEventsAux fuel s →
      ∀ c ∈ t, isTokChar c = true := by
  intro fuel
  induction fuel with
  | zero => intro s t ht; cases ht
  | succ n ih =>
    intro s t ht
    cases s with
    | nil => cases ht
    | cons a cs =>
      rcases hm : matchEventAt (a :: cs) with - | ⟨tok, r⟩
      · have hred : findEventsAux (n + 1) (a :: cs) = findEventsAux n cs := by
          simp only [findEventsAux]
          rw [hm]
        rw [hred] at ht
        exact ih cs t ht
      · have hred : findEventsAux (n + 1) (a :: cs) =
            tok :: findEventsAux n r := by
          simp only [findEventsAux]
          rw [hm]
        rw [hred] at ht
        rcases List.mem_cons.mp ht with heq | ht'
        · subst heq
          exact matchEventAt_tok hm
        · exact ih r t ht'

theorem telemetry_mismatch {filename content body : Str}
    (hb : searchSection (sToL "### Events to Track") content = some body)
    (hne : findall_events body ≠ [])
    (hnm : stem filename ∉ findall_events body) :
    check_telemetry_events filename content =
      [telemetryErr filename (stem filename)] := by
  rw [telemetry_unfold_some hb]
  have h1 : (findall_events body).isEmpty = false :=
    List.isEmpty_eq_false.mpr hne
  have h2 : ((findall_events body).filter (fun e => e = stem filename)) = [] := by
    refine List.filter_eq_nil_iff.mpr fun a ha => ?_
    simp only [decide_eq_true_eq]
    intro hak
    exact hnm (hak ▸ ha)
  simp [h1, h2]

/-- C10: when the document identity contains any character other than a
lowercase letter or hyphen, a located events body with at least one token
always produces the `TELEMETRY_NAMING` finding, since every collected token
consists of token characters only. -/
theorem claim_C10 (filename content body : Str)
    (hb : searchSection (sToL "### Events to Track") content = some body)
    (hbad : ∃ c ∈ stem filename, ¬ isTokChar c = true)
    (hne : findall_events body ≠ []) :
    check_telemetry_events filename content =
      [telemetryErr filename (stem filename)] := by
  have hnm : stem filename ∉ findall_events body := by
    intro hmem
    obtain ⟨c, hc, hbadc⟩ := hbad
    exact hbadc (findEventsAux_tokChar _ _ _ hmem c hc)
  exact telemetry_mismatch hb hne hnm

/-- Witness for C10: identity `My_Agent` (underscore and capitals) with a
token `my-agent` in the events body. -/
theorem claim_C10_witness :
    check_telemetry_events (sToL "My_Agent.md")
      (sToL "### Events to Track\n`agent.my-agent.x`\n") =
      [telemetryErr (sToL "My_Agent.md") (stem (sToL "My_Agent.md"))] :=
  claim_C10 (sToL "My_Agent.md")
    (sToL "### Events to Track\n`agent.my-agent.x`\n")
    (sToL "`agent.my-agent.x`\n") (by decide) (by decide) (by decide)
